import Mathlib

/-!
Shallow embedding of the design-tokens audit script (`audit-tokens.js`).

JSON values are modelled by `JsValue`; JS numbers are modelled as exact
rationals (`Rat`), so floating-point rounding of JS arithmetic is idealised.
JS string `length` is modelled as the character count (identical for the
ASCII strings appearing here).  Each audit checker is a pure state-passing
function over the `Results` collector; the two places where the script can
raise a `TypeError` (calling `toLowerCase` on a non-string truthy
`$description`, and using the `in` operator on a non-object shadow member)
are modelled in the `Except String` monad.
-/

/-- A parsed JSON/JS value, as handled by the audit script. -/
inductive JsValue where
  | str (s : String)
  | num (q : Rat)
  | bool (b : Bool)
  | null
  | arr (elems : List JsValue)
  | obj (fields : List (String × JsValue))

mutual
/-- Boolean structural equality on `JsValue` (used to obtain decidable equality). -/
def beqJs : JsValue → JsValue → Bool
  | .str a, .str b => a == b
  | .num a, .num b => a == b
  | .bool a, .bool b => a == b
  | .null, .null => true
  | .arr a, .arr b => beqJsList a b
  | .obj a, .obj b => beqJsFields a b
  | _, _ => false
termination_by structural a _ => a

/-- Pointwise `beqJs` on lists of values. -/
def beqJsList : List JsValue → List JsValue → Bool
  | [], [] => true
  | a :: as, b :: bs => beqJs a b && beqJsList as bs
  | _, _ => false
termination_by structural a _ => a

/-- Pointwise `beqJs` on association lists. -/
def beqJsFields : List (String × JsValue) → List (String × JsValue) → Bool
  | [], [] => true
  | (k1, v1) :: as, (k2, v2) :: bs => k1 == k2 && beqJs v1 v2 && beqJsFields as bs
  | _, _ => false
termination_by structural a _ => a
end

theorem beqJs_iff_eq : (∀ a b : JsValue, beqJs a b = true ↔ a = b) ∧
    (∀ a b : List (String × JsValue), beqJsFields a b = true ↔ a = b) ∧
    (∀ a b : List JsValue, beqJsList a b = true ↔ a = b) := by
  apply beqJs.mutual_induct (motive_1 := fun a b => beqJs a b = true ↔ a = b)
    (motive_2 := fun a b => beqJsFields a b = true ↔ a = b)
    (motive_3 := fun a b => beqJsList a b = true ↔ a = b)
  case case1 => intro a b; simp [beqJs]
  case case2 => intro a b; simp [beqJs]
  case case3 => intro a b; simp [beqJs]
  case case4 => simp [beqJs]
  case case5 => intro a b ih; simp [beqJs, ih]
  case case6 => intro a b ih; simp [beqJs, ih]
  case case7 =>
    intro t x h1 h2 h3 h4 h5 h6
    cases t <;> cases x <;>
      first
      | (exfalso; solve
          | exact h1 _ _ rfl rfl | exact h2 _ _ rfl rfl | exact h3 _ _ rfl rfl
          | exact h4 rfl rfl | exact h5 _ _ rfl rfl | exact h6 _ _ rfl rfl)
      | simp [beqJs]
  case case8 => simp [beqJsList]
  case case9 => intro a as b bs ih1 ih2; simp [beqJsList, ih1, ih2]
  case case10 =>
    intro t x h1 h2
    cases t <;> cases x <;>
      first
      | (exfalso; solve | exact h1 rfl rfl | exact h2 _ _ _ _ rfl rfl)
      | simp [beqJsList]
  case case11 => simp [beqJsFields]
  case case12 => intro k1 v1 as k2 v2 bs ih1 ih2; simp [beqJsFields, ih1, ih2]
  case case13 =>
    intro t x h1 h2
    cases t <;> cases x
    · exact absurd (h1 rfl rfl) (fun h => h)
    · simp [beqJsFields]
    · simp [beqJsFields]
    · rename_i a as b bs
      exact absurd (h2 a.1 a.2 as b.1 b.2 bs rfl rfl) (fun h => h)

instance : DecidableEq JsValue := fun a b =>
  decidable_of_iff (beqJs a b = true) (beqJs_iff_eq.1 a b)

/-- `String.startsWith` re-expressed on character lists (the bytewise core
primitive does not reduce inside the kernel). -/
def jsStartsWith (s pre : String) : Bool :=
  pre.data.isPrefixOf s.data

/-- `String.endsWith` re-expressed on character lists. -/
def jsEndsWith (s suf : String) : Bool :=
  suf.data.isSuffixOf s.data

/-- `String.toLowerCase` re-expressed on character lists. -/
def jsToLower (s : String) : String :=
  String.mk (s.data.map Char.toLower)

/-- JS truthiness of a value (`undefined` is handled by `truthyOpt`). -/
def truthy : JsValue → Bool
  | .str s => s.length != 0
  | .num q => q != 0
  | .bool b => b
  | .null => false
  | .arr _ => true
  | .obj _ => true

/-- JS truthiness of a possibly-undefined value. -/
def truthyOpt : Option JsValue → Bool
  | none => false
  | some v => truthy v

/-- `typeof v === "object" && v` — objects and arrays (null is falsy). -/
def isObjLike : JsValue → Bool
  | .obj _ => true
  | .arr _ => true
  | _ => false

/-- JS property read `v[k]`; `none` models `undefined`.  (Numeric index and
`length` reads on arrays are not used by the audit script for the property
names it looks up, so they are not modelled.) -/
def getProp (v : JsValue) (k : String) : Option JsValue :=
  match v with
  | .obj fields => fields.lookup k
  | _ => none

/-- JS membership test `k in v` for the property names used by the script. -/
def hasProp (v : JsValue) (k : String) : Bool :=
  match v with
  | .obj fields => fields.any (fun kv => kv.1 == k)
  | _ => false

/-- Whether a node is a token, i.e. `"$value" in v` in the traversal. -/
def hasDollarValue (v : JsValue) : Bool :=
  hasProp v "$value"

/-- `typeof` rendering used in finding messages. -/
def jsTypeof : Option JsValue → String
  | none => "undefined"
  | some (.str _) => "string"
  | some (.num _) => "number"
  | some (.bool _) => "boolean"
  | some .null => "object"
  | some (.arr _) => "object"
  | some (.obj _) => "object"

/-- Template-literal rendering of a value inside a message string
(approximate for composite values, which no finding text depends on). -/
def jsRender : JsValue → String
  | .str s => s
  | .num q => toString q
  | .bool b => if b then "true" else "false"
  | .null => "null"
  | .arr _ => ""
  | .obj _ => "[object Object]"

/-- Template-literal rendering of a possibly-undefined value. -/
def jsRenderOpt : Option JsValue → String
  | none => "undefined"
  | some v => jsRender v

/-- JS numeric comparison `v < c`: non-numbers compare false (NaN semantics;
numeric-string coercion is not modelled — no token corpus here exercises it). -/
def numLt (v : JsValue) (c : Rat) : Bool :=
  match v with
  | .num q => decide (q < c)
  | _ => false

/-- JS numeric comparison `v > c` with the same conventions as `numLt`. -/
def numGt (v : JsValue) (c : Rat) : Bool :=
  match v with
  | .num q => decide (q > c)
  | _ => false

/-- JS test `v % 100 !== 0`: for a number this holds iff `v/100` is not an
integer; for a non-number the JS result is `NaN !== 0`, i.e. true. -/
def jsModHundredNonZero (v : JsValue) : Bool :=
  match v with
  | .num q => decide ((q / 100).den ≠ 1)
  | _ => true

/-- JS strict comparison `token.$type === name` for a string literal. -/
def typeIs (token : JsValue) (name : String) : Bool :=
  match getProp token "$type" with
  | some (.str s) => s == name
  | _ => false

mutual
/-- `traverseTokens(obj, callback, path, layer)` from the script, re-expressed
as the ordered list of `(path, token)` pairs the callback is invoked on.
Arrays are traversed like objects (`Object.entries` yields index keys). -/
def traverseTokens : JsValue → List String → List (List String × JsValue)
  | .obj kvs, path => travKVs kvs path
  | .arr vs, path => travIdx vs 0 path
  | _, _ => []
termination_by structural v _ => v

/-- Traversal over the entries of an object node. -/
def travKVs : List (String × JsValue) → List String → List (List String × JsValue)
  | [], _ => []
  | (k, v) :: rest, path =>
    (if jsStartsWith k "$" then []
     else if isObjLike v then
       if hasDollarValue v then [(path ++ [k], v)]
       else traverseTokens v (path ++ [k])
     else []) ++ travKVs rest path
termination_by structural kvs _ => kvs

/-- Traversal over the entries of an array node, with stringified index keys. -/
def travIdx : List JsValue → Nat → List String → List (List String × JsValue)
  | [], _, _ => []
  | v :: rest, i, path =>
    (if jsStartsWith (toString i) "$" then []
     else if isObjLike v then
       if hasDollarValue v then [(path ++ [toString i], v)]
       else traverseTokens v (path ++ [toString i])
     else []) ++ travIdx rest (i + 1) path
termination_by structural vs _ _ => vs
end

/-- The tokens of a whole tree, in visit order. -/
def tokensOf (tree : JsValue) : List (List String × JsValue) :=
  traverseTokens tree []

/-- `getTokenPath` from the script: dot-join a path array. -/
def getTokenPath (pathArray : List String) : String :=
  String.intercalate "." pathArray

/-- The `results.stats` record of the script. -/
structure AuditStats where
  totalTokens : Nat
  primitiveTokens : Nat
  semanticTokens : Nat
  missingType : Nat
  missingDescription : Nat
  invalidReferences : Nat
deriving DecidableEq, Repr

/-- The shared `results` collector of the script. -/
structure Results where
  pass : List String
  warnings : List String
  critical : List String
  stats : AuditStats
deriving DecidableEq, Repr

/-- The initial (all-zero, all-empty) collector. -/
def emptyResults : Results :=
  { pass := [], warnings := [], critical := [],
    stats := { totalTokens := 0, primitiveTokens := 0, semanticTokens := 0,
               missingType := 0, missingDescription := 0, invalidReferences := 0 } }

/-- `addPass(message)`. -/
def addPass (message : String) (r : Results) : Results :=
  { r with pass := r.pass ++ [message] }

/-- `addWarning(message)`. -/
def addWarning (message : String) (r : Results) : Results :=
  { r with warnings := r.warnings ++ [message] }

/-- `addCritical(message)`. -/
def addCritical (message : String) (r : Results) : Results :=
  { r with critical := r.critical ++ [message] }

/-- The per-visited-token counter updates performed inside `traverseTokens`. -/
def visitToken (layer : String) (r : Results) : Results :=
  { r with stats :=
    { r.stats with
      totalTokens := r.stats.totalTokens + 1,
      primitiveTokens := r.stats.primitiveTokens + (if layer == "primitive" then 1 else 0),
      semanticTokens := r.stats.semanticTokens + (if layer == "semantic" then 1 else 0) } }

/-- One traversal of a tree by a checker callback that only touches `Results`:
the callback runs on each token, then the visit counters are bumped. -/
def traverseRun (tree : JsValue) (layer : String)
    (f : List String → JsValue → Results → Results) (r : Results) : Results :=
  (tokensOf tree).foldl (fun r pt => visitToken layer (f pt.1 pt.2 r)) r

/-- One traversal whose callback also threads checker-local state `σ`. -/
def traverseRunS {σ : Type} (tree : JsValue) (layer : String)
    (f : List String → JsValue → Results × σ → Results × σ)
    (init : Results × σ) : Results × σ :=
  (tokensOf tree).foldl
    (fun acc pt => let acc2 := f pt.1 pt.2 acc; (visitToken layer acc2.1, acc2.2)) init

/-- One traversal whose callback may raise a JS `TypeError`. -/
def traverseRunE {σ : Type} (tree : JsValue) (layer : String)
    (f : List String → JsValue → Results × σ → Except String (Results × σ))
    (init : Results × σ) : Except String (Results × σ) :=
  (tokensOf tree).foldlM
    (fun acc pt => do
      let acc2 ← f pt.1 pt.2 acc
      pure (visitToken layer acc2.1, acc2.2)) init

/-- Anchored test of the 6-digit hex-colour pattern against a value; a
non-string stringifies without a leading hash and can never match. -/
def hexPatternTest : Option JsValue → Bool
  | some (.str s) =>
    match s.data with
    | '#' :: rest =>
      rest.length == 6 &&
        rest.all (fun c => c.isDigit || ('A' ≤ c && c ≤ 'F') || ('a' ≤ c && c ≤ 'f'))
    | _ => false
  | _ => false

/-- `validateColorValue(value, tokenPath)` — returns the updated collector and
the boolean result of the validator. -/
def validateColorValue (value : JsValue) (tokenPath : String) (r : Results) : Results × Bool :=
  match value with
  | .str s =>
    (addCritical (tokenPath ++ ": Color uses string format (\"" ++ s ++
      "\"). Must use HSL object format per ADR 006") r, false)
  | _ =>
    if !(truthy value && isObjLike value) then
      (addCritical (tokenPath ++ ": Invalid color value format") r, false)
    else
      let missing := ["colorSpace", "components", "alpha", "hex"].filter
        (fun p => !hasProp value p)
      if missing.length > 0 then
        (addCritical (tokenPath ++ ": Missing required color properties: " ++
          String.intercalate ", " missing) r, false)
      else if !(match getProp value "colorSpace" with
                | some (.str s) => s == "hsl"
                | _ => false) then
        (addCritical (tokenPath ++ ": colorSpace must be \"hsl\", got \"" ++
          jsRenderOpt (getProp value "colorSpace") ++ "\"") r, false)
      else
        match getProp value "components" with
        | some (.arr comps) =>
          if comps.length != 3 then
            (addCritical (tokenPath ++
              ": components must be array of 3 numbers [H, S, L]") r, false)
          else
            let h := (comps.get? 0).getD .null
            let s := (comps.get? 1).getD .null
            let l := (comps.get? 2).getD .null
            let r := if numLt h 0 || numGt h 360 then
                addWarning (tokenPath ++ ": Hue value " ++ jsRender h ++
                  " outside expected range 0-360") r
              else r
            let r := if numLt s 0 || numGt s 100 then
                addWarning (tokenPath ++ ": Saturation value " ++ jsRender s ++
                  " outside expected range 0-100") r
              else r
            let r := if numLt l 0 || numGt l 100 then
                addWarning (tokenPath ++ ": Lightness value " ++ jsRender l ++
                  " outside expected range 0-100") r
              else r
            match getProp value "alpha" with
            | some (.num a) =>
              if a < 0 || a > 1 then
                (addCritical (tokenPath ++
                  ": alpha must be number between 0 and 1, got " ++ toString a) r, false)
              else if !hexPatternTest (getProp value "hex") then
                (addCritical (tokenPath ++ ": hex must be valid 6-digit hex color, got \"" ++
                  jsRenderOpt (getProp value "hex") ++ "\"") r, false)
              else
                (r, true)
            | other =>
              (addCritical (tokenPath ++ ": alpha must be number between 0 and 1, got " ++
                jsRenderOpt other) r, false)
        | _ =>
          (addCritical (tokenPath ++
            ": components must be array of 3 numbers [H, S, L]") r, false)

/-- `validateDimensionValue(value, tokenPath)`. -/
def validateDimensionValue (value : JsValue) (tokenPath : String) (r : Results) : Results × Bool :=
  match value with
  | .str s =>
    (addCritical (tokenPath ++ ": Dimension uses string format (\"" ++ s ++
      "\"). Must use \x7bvalue, unit\x7d object per ADR 005") r, false)
  | _ =>
    if !(truthy value && isObjLike value) then
      (addCritical (tokenPath ++ ": Invalid dimension value format") r, false)
    else if !(hasProp value "value" && hasProp value "unit") then
      (addCritical (tokenPath ++
        ": Dimension must have both value and unit properties") r, false)
    else
      match getProp value "value" with
      | some (.num _) =>
        match getProp value "unit" with
        | some (.str u) =>
          if u != "px" && u != "em" then
            (addWarning (tokenPath ++ ": Unexpected unit \"" ++ u ++
              "\". Primitives should use \"px\" or \"em\"") r, true)
          else
            (r, true)
        | other =>
          (addCritical (tokenPath ++ ": Dimension unit must be a string, got " ++
            jsTypeof other) r, false)
      | other =>
        (addCritical (tokenPath ++ ": Dimension value must be a number, got " ++
          jsTypeof other) r, false)

/-- `validateTypographyValue(value, tokenPath)`. -/
def validateTypographyValue (value : JsValue) (tokenPath : String) (r : Results) : Results × Bool :=
  if !(truthy value && isObjLike value) then
    (addCritical (tokenPath ++ ": Typography value must be an object") r, false)
  else
    let missing := ["fontFamily", "fontSize", "fontWeight", "lineHeight"].filter
      (fun p => !hasProp value p)
    if missing.length > 0 then
      (addWarning (tokenPath ++ ": Typography missing recommended properties: " ++
        String.intercalate ", " missing) r, true)
    else
      (r, true)

/-- The member loop of `validateShadowValue`: `in` on a non-object member
raises a `TypeError`. -/
def shadowLoop : List JsValue → String → Results → Except String (Results × Bool)
  | [], _, r => .ok (r, true)
  | shadow :: rest, tokenPath, r =>
    if !isObjLike shadow then
      .error "TypeError: Cannot use the in operator to search for offsetX in a non-object shadow member"
    else
      let missing := ["offsetX", "offsetY", "blur", "color"].filter
        (fun p => !hasProp shadow p)
      if missing.length > 0 then
        .ok (addCritical (tokenPath ++ ": Shadow missing required properties: " ++
          String.intercalate ", " missing) r, false)
      else
        shadowLoop rest tokenPath r

/-- `validateShadowValue(value, tokenPath)`. -/
def validateShadowValue (value : JsValue) (tokenPath : String) (r : Results) :
    Except String (Results × Bool) :=
  if !(truthy value && isObjLike value) then
    .ok (addCritical (tokenPath ++ ": Shadow value must be an object") r, false)
  else
    let shadows := match value with
      | .arr vs => vs
      | _ => [value]
    shadowLoop shadows tokenPath r

/-- Bump `results.stats.invalidReferences`. -/
def bumpInvalidReferences (r : Results) : Results :=
  { r with stats := { r.stats with invalidReferences := r.stats.invalidReferences + 1 } }

mutual
/-- The inner `checkReferences(value, tokenPath)` walker of
`checkReferenceIntegrity`: recognises `\x7b…\x7d` reference strings, records each
distinct reference, flags dangling references and layer-qualified references,
and recurses through the values of composite objects and arrays. -/
def checkRefs (pIdx sIdx : List String) (tokenPath : String) :
    JsValue → List String × Results → List String × Results
  | .str s, (refs, r) =>
    if jsStartsWith s "\x7b" && jsEndsWith s "\x7d" then
      let ref := (s.drop 1).dropRight 1
      let refs := if refs.contains ref then refs else refs ++ [ref]
      let r := if !pIdx.contains ref && !sIdx.contains ref then
          bumpInvalidReferences (addCritical (tokenPath ++ ": Reference \"\x7b" ++ ref ++
            "\x7d\" points to non-existent token") r)
        else r
      let r := if jsStartsWith ref "primitive." || jsStartsWith ref "semantic." then
          addCritical (tokenPath ++ ": Reference \"\x7b" ++ ref ++
            "\x7d\" includes layer prefix. Use \"\x7bcolor.primary.600\x7d\" not \"\x7bprimitive.color.primary.600\x7d\"") r
        else r
      (refs, r)
    else (refs, r)
  | .obj fs, acc => checkRefsFields pIdx sIdx tokenPath fs acc
  | .arr vs, acc => checkRefsElems pIdx sIdx tokenPath vs acc
  | _, acc => acc
termination_by structural v _ => v

/-- `checkRefs` over the values of an object (`Object.values`). -/
def checkRefsFields (pIdx sIdx : List String) (tokenPath : String) :
    List (String × JsValue) → List String × Results → List String × Results
  | [], acc => acc
  | (_, v) :: rest, acc =>
    checkRefsFields pIdx sIdx tokenPath rest (checkRefs pIdx sIdx tokenPath v acc)
termination_by structural fs _ => fs

/-- `checkRefs` over the elements of an array. -/
def checkRefsElems (pIdx sIdx : List String) (tokenPath : String) :
    List JsValue → List String × Results → List String × Results
  | [], acc => acc
  | v :: rest, acc =>
    checkRefsElems pIdx sIdx tokenPath rest (checkRefs pIdx sIdx tokenPath v acc)
termination_by structural vs _ => vs
end

/-- Bump `results.stats.missingType`. -/
def bumpMissingType (r : Results) : Results :=
  { r with stats := { r.stats with missingType := r.stats.missingType + 1 } }

/-- Bump `results.stats.missingDescription`. -/
def bumpMissingDescription (r : Results) : Results :=
  { r with stats := { r.stats with missingDescription := r.stats.missingDescription + 1 } }

/-- JS test `token.$description.length < 10` for a truthy description: strings
and arrays have a `length`; for other values the comparison is
`undefined < 10`, which is false. -/
def descLenLtTen : JsValue → Bool
  | .str s => s.length < 10
  | .arr vs => vs.length < 10
  | _ => false

/-- Rendering of `token.$description.length` inside the too-short message. -/
def descLenRender : JsValue → String
  | .str s => toString s.length
  | .arr vs => toString vs.length
  | _ => "undefined"

/-- The nesting-depth callback of `checkDTCGCompliance` (lines 288-292 and
294-298 of the script), as the list of warnings it emits for one token path. -/
def depthFindings (path : List String) : List String :=
  if path.length > 4 then
    [getTokenPath path ++ ": Nesting depth " ++ toString path.length ++
      " exceeds recommended max of 4"]
  else []

/-- Check #1: `checkDTCGCompliance()`. -/
def checkDTCGCompliance (primitiveTokens semanticTokens : JsValue) (r : Results) : Results :=
  let r := traverseRun primitiveTokens "primitive" (fun path token r =>
    if !truthyOpt (getProp token "$type") then
      bumpMissingType (addCritical (getTokenPath path ++ ": Missing required $type property") r)
    else r) r
  let r := traverseRun semanticTokens "semantic" (fun path token r =>
    if !truthyOpt (getProp token "$type") then
      bumpMissingType (addCritical (getTokenPath path ++ ": Missing required $type property") r)
    else r) r
  let r := traverseRun primitiveTokens "primitive" (fun path token r =>
    match getProp token "$description" with
    | some d =>
      if !truthy d then
        bumpMissingDescription (addWarning (getTokenPath path ++ ": Missing $description property") r)
      else if descLenLtTen d then
        addWarning (getTokenPath path ++ ": Description too short (" ++ descLenRender d ++
          " chars). Should be descriptive.") r
      else r
    | none =>
      bumpMissingDescription (addWarning (getTokenPath path ++ ": Missing $description property") r)) r
  let r := traverseRun semanticTokens "semantic" (fun path token r =>
    if !truthyOpt (getProp token "$description") then
      bumpMissingDescription (addWarning (getTokenPath path ++ ": Missing $description property") r)
    else r) r
  let r := traverseRun primitiveTokens "primitive" (fun path token r =>
    let tokenPath := getTokenPath path
    if typeIs token "color" then
      (validateColorValue ((getProp token "$value").getD .null) tokenPath r).1
    else if typeIs token "dimension" then
      (validateDimensionValue ((getProp token "$value").getD .null) tokenPath r).1
    else if typeIs token "fontFamily" then
      match getProp token "$value" with
      | some (.arr _) => r
      | _ => addCritical (tokenPath ++ ": fontFamily must be an array of font names") r
    else if typeIs token "number" then
      match getProp token "$value" with
      | some (.num _) => r
      | other => addCritical (tokenPath ++ ": Type is number but value is " ++ jsTypeof other) r
    else r) r
  let r := traverseRun primitiveTokens "primitive" (fun path _ r =>
    (depthFindings path).foldl (fun r m => addWarning m r) r) r
  let r := traverseRun semanticTokens "semantic" (fun path _ r =>
    (depthFindings path).foldl (fun r m => addWarning m r) r) r
  let r := if r.stats.missingType == 0 then addPass "All tokens have $type declarations" r else r
  let r := if r.stats.missingDescription == 0 then addPass "All tokens have $description" r else r
  r

/-- Check #2: `checkReferenceIntegrity()`. -/
def checkReferenceIntegrity (primitiveTokens semanticTokens : JsValue) (r : Results) : Results :=
  let primitiveIndex := (tokensOf primitiveTokens).map (fun pt => getTokenPath pt.1)
  let r := traverseRun primitiveTokens "primitive" (fun _ _ r => r) r
  let semanticIndex := (tokensOf semanticTokens).map (fun pt => getTokenPath pt.1)
  let r := traverseRun semanticTokens "semantic" (fun _ _ r => r) r
  let out := traverseRunS semanticTokens "semantic" (fun path token acc =>
    let tokenPath := getTokenPath path
    let (refs, r) := checkRefs primitiveIndex semanticIndex tokenPath
      ((getProp token "$value").getD .null) (acc.2, acc.1)
    let (refs, r) :=
      match getProp token "$extensions" with
      | some ext =>
        if truthy ext then
          match getProp ext "opacity" with
          | some op =>
            if truthy op then checkRefs primitiveIndex semanticIndex tokenPath op (refs, r)
            else (refs, r)
          | none => (refs, r)
        else (refs, r)
      | none => (refs, r)
    (r, refs)) (r, ([] : List String))
  let r := out.1
  let allReferences := out.2
  let r := if r.stats.invalidReferences == 0 then
      addPass ("All " ++ toString allReferences.length ++ " token references are valid") r
    else r
  addPass "No obvious circular references detected (basic check)" r

/-- The fixed interactive-state names of `checkNamingConventions`. -/
def stateNames : List String :=
  ["default", "hover", "pressed", "active", "focus", "disabled", "visited", "selected"]

/-- Check #3: `checkNamingConventions()`. -/
def checkNamingConventions (primitiveTokens semanticTokens : JsValue) (r : Results) : Results :=
  let out := traverseRunS primitiveTokens "primitive" (fun path _ (acc : Results × Nat) =>
    let tokenPath := getTokenPath path
    if jsStartsWith tokenPath "primitive." || jsStartsWith tokenPath "semantic." then
      (addCritical (tokenPath ++ ": Token path includes layer prefix. Remove it per ADR 001.") acc.1,
        acc.2 + 1)
    else acc) (r, 0)
  let out := traverseRunS semanticTokens "semantic" (fun path _ (acc : Results × Nat) =>
    let tokenPath := getTokenPath path
    if jsStartsWith tokenPath "primitive." || jsStartsWith tokenPath "semantic." then
      (addCritical (tokenPath ++ ": Token path includes layer prefix. Remove it per ADR 001.") acc.1,
        acc.2 + 1)
    else acc) out
  let r := out.1
  let namingIssues := out.2
  let r := traverseRun semanticTokens "semantic" (fun path _ r =>
    match path.getLast? with
    | some lastSegment =>
      if stateNames.contains lastSegment && path.length != 4 then
        addWarning (getTokenPath path ++ ": Token with state \"" ++ lastSegment ++
          "\" should have 4 levels") r
      else r
    | none => r) r
  if namingIssues == 0 then
    addPass "Token naming follows the type.category.scale.state convention"
      (addPass "No layer prefixes found in token paths" r)
  else r

/-- Check #4: `checkValueFormatConsistency()`. -/
def checkValueFormatConsistency (primitiveTokens semanticTokens : JsValue) (r : Results) :
    Except String Results := do
  let out := traverseRunS primitiveTokens "primitive" (fun path token (acc : Results × Nat) =>
    if typeIs token "color" then
      let vr := validateColorValue ((getProp token "$value").getD .null) (getTokenPath path) acc.1
      (vr.1, if vr.2 then acc.2 else acc.2 + 1)
    else acc) (r, 0)
  let out := traverseRunS primitiveTokens "primitive" (fun path token (acc : Results × Nat) =>
    if typeIs token "dimension" then
      let vr := validateDimensionValue ((getProp token "$value").getD .null) (getTokenPath path) acc.1
      (vr.1, if vr.2 then acc.2 else acc.2 + 1)
    else acc) out
  let out := traverseRunS semanticTokens "semantic" (fun path token (acc : Results × Nat) =>
    if typeIs token "typography" then
      let vr := validateTypographyValue ((getProp token "$value").getD .null) (getTokenPath path) acc.1
      (vr.1, if vr.2 then acc.2 else acc.2 + 1)
    else acc) out
  let out ← traverseRunE semanticTokens "semantic" (fun path token (acc : Results × Nat) =>
    if typeIs token "shadow" then do
      let vr ← validateShadowValue ((getProp token "$value").getD .null) (getTokenPath path) acc.1
      pure (vr.1, if vr.2 then acc.2 else acc.2 + 1)
    else .ok acc) out
  let out := traverseRunS primitiveTokens "primitive" (fun path token (acc : Results × Nat) =>
    if typeIs token "number" then
      let tokenPath := getTokenPath path
      let value := getProp token "$value"
      let acc :=
        match value with
        | some (.num _) => acc
        | _ => (addCritical (tokenPath ++ ": Type is number but value is not numeric") acc.1,
            acc.2 + 1)
      let v := value.getD .null
      let acc :=
        if jsStartsWith tokenPath "fontWeight." then
          if numLt v 100 || numGt v 900 || jsModHundredNonZero v then
            (addWarning (tokenPath ++ ": fontWeight should be 100-900 in increments of 100, got " ++
              jsRenderOpt value) acc.1, acc.2)
          else acc
        else acc
      let acc :=
        if jsStartsWith tokenPath "lineHeight." then
          if numLt v (1/2) || numGt v 3 then
            (addWarning (tokenPath ++ ": lineHeight value " ++ jsRenderOpt value ++
              " seems unusual (expected 0.5-3)") acc.1, acc.2)
          else acc
        else acc
      let acc :=
        if jsStartsWith tokenPath "opacity." then
          if numLt v 0 || numGt v 1 then
            (addCritical (tokenPath ++ ": opacity must be 0-1, got " ++ jsRenderOpt value) acc.1,
              acc.2 + 1)
          else acc
        else acc
      acc
    else acc) out
  let r := out.1
  let formatIssues := out.2
  pure (if formatIssues == 0 then addPass "All token values use correct format for their type" r else r)

/-- The essential semantic token patterns of `checkCompleteness`. -/
def essentialSemantics : List String :=
  ["color.text.neutral.base.default",
   "color.background.neutral.base.default",
   "color.border.neutral.base.default",
   "typography.body.md.default",
   "typography.heading"]

/-- The expected 12-step colour scale of `checkCompleteness`. -/
def expectedScales : List String :=
  ["100", "200", "300", "400", "500", "600", "700", "800", "900", "1000", "1100", "1200"]

/-- The colour categories whose scales `checkCompleteness` verifies. -/
def scaleCategories : List String :=
  ["primary", "secondary", "neutral", "success", "warning", "error"]

/-- Check #5: `checkCompleteness()`. -/
def checkCompleteness (primitiveTokens semanticTokens : JsValue) (r : Results) : Results :=
  let semanticIndex := (tokensOf semanticTokens).map (fun pt => getTokenPath pt.1)
  let r := traverseRun semanticTokens "semantic" (fun _ _ r => r) r
  let r := essentialSemantics.foldl (fun r essential =>
    if semanticIndex.any (fun p => jsStartsWith p essential) then r
    else addWarning ("Missing essential semantic token pattern: " ++ essential) r) r
  let r := scaleCategories.foldl (fun r category =>
    let out := traverseRunS primitiveTokens "primitive"
      (fun path _ (acc : Results × List (Option String)) =>
        if path.get? 0 == some "color" && path.get? 1 == some category then
          (acc.1, acc.2 ++ [path.get? 2])
        else acc) (r, [])
    let r := out.1
    let foundScales := out.2
    let missing := expectedScales.filter (fun s => !foundScales.contains (some s))
    if missing.length > 0 then
      addWarning ("color." ++ category ++ ": Missing scale values: " ++
        String.intercalate ", " missing) r
    else
      addPass ("color." ++ category ++ ": Complete 12-step scale (100-1200)") r) r
  let out := traverseRunS semanticTokens "semantic" (fun path _ (acc : Results × Bool) =>
    match path.getLast? with
    | some lastSegment =>
      if ["default", "hover", "pressed"].contains lastSegment then (acc.1, true) else acc
    | none => acc) (r, false)
  let r := out.1
  let hasStates := out.2
  let r := if hasStates then
      addPass "Interactive states (default, hover, pressed) are defined" r
    else
      addWarning "No interactive states found. Consider adding hover/pressed states." r
  let primitiveIndex := (tokensOf primitiveTokens).map (fun pt => getTokenPath pt.1)
  let r := traverseRun primitiveTokens "primitive" (fun _ _ r => r) r
  let r := if primitiveIndex.contains "color.white" then addPass "color.white is defined" r
    else addWarning "Missing color.white primitive token" r
  if primitiveIndex.contains "color.black" then addPass "color.black is defined" r
  else addWarning "Missing color.black primitive token" r

/-- `beqJs` lifted to possibly-undefined values (JS `Set` membership on the
`$type` values collected per category). -/
def beqOptJs : Option JsValue → Option JsValue → Bool
  | none, none => true
  | some a, some b => beqJs a b
  | _, _ => false

/-- Insertion into the `typesByCategory` map of `checkQuality`, preserving
first-seen category order and first-seen type order within a category. -/
def insertTypeEntry : List (String × List (Option JsValue)) → String → Option JsValue →
    List (String × List (Option JsValue))
  | [], category, ty => [(category, [ty])]
  | (c, tys) :: rest, category, ty =>
    if c == category then
      (c, if tys.any (fun t => beqOptJs t ty) then tys else tys ++ [ty]) :: rest
    else
      (c, tys) :: insertTypeEntry rest category ty

/-- The member names a plain JS object literal inherits from
`Object.prototype` (all of them truthy: functions, plus the `__proto__`
accessor returning the prototype object). -/
def objectProtoMembers : List String :=
  ["constructor", "hasOwnProperty", "isPrototypeOf", "propertyIsEnumerable",
   "toLocaleString", "toString", "valueOf", "__proto__",
   "__defineGetter__", "__defineSetter__", "__lookupGetter__", "__lookupSetter__"]

/-- One step of the `typesByCategory` accumulation of `checkQuality`.  The
script reads `typesByCategory[category]` through the prototype chain: with an
own `Set` present it adds the type; with no own property and a category named
after an `Object.prototype` member, the guard `!typesByCategory[category]`
sees the truthy inherited value, the `new Set()` initialisation is skipped,
and `.add` on a non-`Set` throws a `TypeError`; otherwise the read is
`undefined`, a fresh `Set` is installed and the type added. -/
def addTypeEntry (assoc : List (String × List (Option JsValue))) (category : String)
    (ty : Option JsValue) : Except String (List (String × List (Option JsValue))) :=
  if assoc.any (fun e => e.1 == category) then
    .ok (insertTypeEntry assoc category ty)
  else if objectProtoMembers.contains category then
    .error "TypeError: typesByCategory[category].add is not a function"
  else
    .ok (insertTypeEntry assoc category ty)

/-- The generic lead words of `checkQuality`. -/
def vagueWords : List String :=
  ["color", "token", "value", "style"]

/-- Check #6: `checkQuality()`; calling `toLowerCase` on a truthy non-string
`$description` raises a `TypeError`, as does `typesByCategory[category].add`
when a top-level primitive group is named after an `Object.prototype`
member (the prototype-chain read skips the `new Set()` initialisation). -/
def checkQuality (primitiveTokens semanticTokens : JsValue) (r : Results) :
    Except String Results := do
  let out ← traverseRunE primitiveTokens "primitive" (fun path token (acc : Results × Nat) =>
    match getProp token "$description" with
    | some d =>
      if truthy d then
        match d with
        | .str s =>
          let desc := jsToLower s
          let hasVague := vagueWords.any (fun word =>
            desc == word || jsStartsWith desc (word ++ " ") || jsStartsWith desc (word ++ "."))
          if hasVague && desc.length < 20 then
            .ok (addWarning (getTokenPath path ++ ": Description may be too generic: \"" ++
              s ++ "\"") acc.1, acc.2 + 1)
          else .ok acc
        | _ => .error "TypeError: token.$description.toLowerCase is not a function"
      else .ok acc
    | none => .ok acc) (r, 0)
  let r := out.1
  let unclearDescriptions := out.2
  let out ← traverseRunE primitiveTokens "primitive"
    (fun path token (acc : Results × List (String × List (Option JsValue))) => do
      let m ← addTypeEntry acc.2 (path.headD "") (getProp token "$type")
      pure (acc.1, m)) (r, [])
  let r := out.1
  let typesByCategory := out.2
  let out := typesByCategory.foldl (fun (acc : Results × Nat) entry =>
    if entry.2.length > 1 then
      (addWarning ("Category \"" ++ entry.1 ++ "\" has multiple types: " ++
        String.intercalate ", " (entry.2.map jsRenderOpt) ++ ". Should be consistent.") acc.1,
        acc.2 + 1)
    else acc) (r, 0)
  let r := out.1
  let typeInconsistencies := out.2
  let r := if typeInconsistencies == 0 then
      addPass "All token categories use consistent $type declarations" r
    else r
  let r := if unclearDescriptions == 0 then
      addPass "All descriptions are clear and specific" r
    else r
  let out := traverseRunS semanticTokens "semantic" (fun _ token (acc : Results × Bool) =>
    match getProp token "$extensions" with
    | some ext =>
      if truthy ext && truthyOpt (getProp ext "contrast") then (acc.1, true) else acc
    | none => acc) (r, false)
  let r := out.1
  let hasAccessibilityInfo := out.2
  pure (if hasAccessibilityInfo then
      addPass "Accessibility information (contrast ratios) included in $extensions" r
    else
      addWarning "Consider adding contrast ratio information to text color tokens for WCAG compliance" r)

/-- The whole audit run: the six checks in source order over the shared
collector, starting from the empty collector. -/
def runAuditE (primitiveTokens semanticTokens : JsValue) : Except String Results := do
  let r := checkDTCGCompliance primitiveTokens semanticTokens emptyResults
  let r := checkReferenceIntegrity primitiveTokens semanticTokens r
  let r := checkNamingConventions primitiveTokens semanticTokens r
  let r ← checkValueFormatConsistency primitiveTokens semanticTokens r
  let r := checkCompleteness primitiveTokens semanticTokens r
  let r ← checkQuality primitiveTokens semanticTokens r
  pure r

/-- The production-readiness score computed by `printResults`:
`Math.round((pass / totalChecks) * 100)` when any finding exists, else `0`.
For naturals `(200 p + t) / (2 t)` is exactly `⌊100 p / t + 1/2⌋`. -/
def reportedScore (r : Results) : Nat :=
  let totalIssues := r.critical.length + r.warnings.length
  let totalChecks := r.pass.length + totalIssues
  if totalChecks > 0 then (200 * r.pass.length + totalChecks) / (2 * totalChecks) else 0

/-- The three-way production-readiness verdict of `printResults`. -/
inductive Verdict where
  | productionReady
  | readyWithWarnings
  | notProductionReady
deriving DecidableEq, Repr

/-- The verdict branch of `printResults`. -/
def verdict (r : Results) : Verdict :=
  if r.critical.length == 0 && r.warnings.length == 0 then .productionReady
  else if r.critical.length == 0 then .readyWithWarnings
  else .notProductionReady

/-- The collector of a completed run (used to state closed facts about runs
that are proven, separately, to complete). -/
def auditOrEmpty (primitiveTokens semanticTokens : JsValue) : Results :=
  match runAuditE primitiveTokens semanticTokens with
  | .ok r => r
  | .error _ => emptyResults

/-- A well-formed primitive HSL colour value (`#2563eb`). -/
def brandBlueValue : JsValue :=
  .obj [("colorSpace", .str "hsl"),
        ("components", .arr [.num 217, .num 91, .num 60]),
        ("alpha", .num 1),
        ("hex", .str "#2563eb")]

/-- Primitive tree with the single valid colour token `color.brand.600`. -/
def primTwoTok : JsValue :=
  .obj [("color", .obj [("brand", .obj [("600", .obj
    [("$type", .str "color"),
     ("$value", brandBlueValue),
     ("$description", .str "Brand blue, primary actions")])])])]

/-- Semantic tree with the single token `color.action.primary` referencing the
primitive correctly (layer-agnostic reference). -/
def semTwoTok : JsValue :=
  .obj [("color", .obj [("action", .obj [("primary", .obj
    [("$type", .str "color"),
     ("$value", .str "\x7bcolor.brand.600\x7d"),
     ("$description", .str "Primary action background color")])])])]

/-- Semantic tree identical to `semTwoTok` except the reference is
layer-qualified (`primitive.…`). -/
def semTwoTokQualified : JsValue :=
  .obj [("color", .obj [("action", .obj [("primary", .obj
    [("$type", .str "color"),
     ("$value", .str "\x7bprimitive.color.brand.600\x7d"),
     ("$description", .str "Primary action background color")])])])]

/-- Empty primitive tree. -/
def primEmpty : JsValue := .obj []

/-- Cyclic semantic tree: `color.a` references `color.b` and vice versa. -/
def semCyclic : JsValue :=
  .obj [("color", .obj
    [("a", .obj [("$type", .str "color"),
                 ("$value", .str "\x7bcolor.b\x7d"),
                 ("$description", .str "Token a references token b")]),
     ("b", .obj [("$type", .str "color"),
                 ("$value", .str "\x7bcolor.a\x7d"),
                 ("$description", .str "Token b references token a")])])]

/-- Semantic tree with one token at the 5-segment path
`color.background.neutral.base.hover`, whose last segment is a recognised
interactive-state name. -/
def semDeepState : JsValue :=
  .obj [("color", .obj [("background", .obj [("neutral", .obj [("base", .obj [("hover", .obj
    [("$type", .str "color"),
     ("$value", .str "\x7bcolor.brand.600\x7d"),
     ("$description", .str "Hover background for neutral surfaces")])])])])])]

/-- Primitive tree holding a valid colour token `color.base` plus a colour
token `color.ref` whose raw `$value` is a reference string. -/
def primRefValued : JsValue :=
  .obj [("color", .obj
    [("base", .obj [("$type", .str "color"),
                    ("$value", brandBlueValue),
                    ("$description", .str "Base brand blue color value")]),
     ("ref", .obj [("$type", .str "color"),
                   ("$value", .str "\x7bcolor.base\x7d"),
                   ("$description", .str "Alias of the base brand color")])])]

/-- Primitive tree with one token whose `$description` is the number `5`
(truthy but not a string). -/
def primNumericDesc : JsValue :=
  .obj [("color", .obj [("bad", .obj
    [("$type", .str "color"),
     ("$value", brandBlueValue),
     ("$description", .num 5)])])]

/-- Primitive tree whose single well-formed token sits under a top-level
group named `toString`, an `Object.prototype` member name. -/
def primProtoGroup : JsValue :=
  .obj [("toString", .obj [("size", .obj
    [("$type", .str "number"),
     ("$value", .num 4),
     ("$description", .str "Numeric size token in a group named toString")])])]

/-- Whether a run of the audit completes without a thrown `TypeError`. -/
def runCompletes (primitiveTokens semanticTokens : JsValue) : Bool :=
  match runAuditE primitiveTokens semanticTokens with
  | .ok _ => true
  | .error _ => false

/-- The thrown error of a run, if any. -/
def runFailure (primitiveTokens semanticTokens : JsValue) : Option String :=
  match runAuditE primitiveTokens semanticTokens with
  | .error e => some e
  | .ok _ => none

/-- A token whose `$description` cannot make `checkQuality` throw: the
description is absent, falsy, or a string. -/
def descSafe (token : JsValue) : Bool :=
  match getProp token "$description" with
  | some (.str _) => true
  | some d => !truthy d
  | none => true

/-- A token path whose head cannot make the `typesByCategory` accumulation of
`checkQuality` throw: the top-level group name is not an `Object.prototype`
member. -/
def protoSafe (path : List String) : Bool :=
  !objectProtoMembers.contains (path.headD "")

/-- A token whose `$value` cannot make `validateShadowValue` throw: if it is
typed `shadow` and its value is an array, every member is object-like. -/
def shadowSafe (token : JsValue) : Bool :=
  if typeIs token "shadow" then
    match (getProp token "$value").getD .null with
    | .arr vs => vs.all isObjLike
    | _ => true
  else true

/-- The `Object.entries` index keys of an array, starting at a given index. -/
def idxPairs : Nat → List JsValue → List (String × JsValue)
  | _, [] => []
  | i, v :: rest => (toString i, v) :: idxPairs (i + 1) rest

/-- The `Object.entries` view of a value: fields of an object, indexed
elements of an array, nothing for primitives. -/
def entriesOf : JsValue → List (String × JsValue)
  | .obj kvs => kvs
  | .arr vs => idxPairs 0 vs
  | _ => []

/-- Independent specification of which nodes a traversal visits: `t` is
visited at relative path `p` below `v` iff `p` descends from `v` through
entries whose keys do not start with the metadata sentinel `$`, through
object-like group nodes not containing `$value`, and ends at an object-like
node containing `$value`. -/
inductive SpecVisits : JsValue → List String → JsValue → Prop where
  | token {v : JsValue} {k : String} {c : JsValue} :
      (k, c) ∈ entriesOf v → jsStartsWith k "$" = false → isObjLike c = true →
      hasDollarValue c = true → SpecVisits v [k] c
  | group {v : JsValue} {k : String} {c : JsValue} {p : List String} {t : JsValue} :
      (k, c) ∈ entriesOf v → jsStartsWith k "$" = false → isObjLike c = true →
      hasDollarValue c = false → SpecVisits c p t → SpecVisits v (k :: p) t

/-- One-level unfolding of `SpecVisits` over a given entry list. -/
def EntrySpec (kvs : List (String × JsValue)) (q : List String) (t : JsValue) : Prop :=
  ∃ k c, (k, c) ∈ kvs ∧ jsStartsWith k "$" = false ∧ isObjLike c = true ∧
    ((hasDollarValue c = true ∧ q = [k] ∧ t = c) ∨
     (hasDollarValue c = false ∧ ∃ q2, q = k :: q2 ∧ SpecVisits c q2 t))

/-- A minimal one-token tree used to instantiate traversal facts. -/
def oneTokenTree : JsValue :=
  .obj [("color", .obj [("$value", .str "x")])]

/-- The single token of `oneTokenTree`. -/
def oneToken : JsValue :=
  .obj [("$value", .str "x")]

instance {ε α : Type} [DecidableEq ε] [DecidableEq α] : DecidableEq (Except ε α) := fun a b =>
  match a, b with
  | .ok x, .ok y =>
    if h : x = y then .isTrue (by rw [h]) else .isFalse (by simp [h])
  | .error x, .error y =>
    if h : x = y then .isTrue (by rw [h]) else .isFalse (by simp [h])
  | .ok _, .error _ => .isFalse (by simp)
  | .error _, .ok _ => .isFalse (by simp)

/-- C1 (counterexample): on the cyclic corpus (semantic tokens `color.a` and
`color.b` referencing each other) the audit completes but its `critical`
bucket is empty — it does not report exactly one critical cycle finding. -/
theorem cyclic_corpus_yields_no_critical :
    (auditOrEmpty primEmpty semCyclic).critical = [] ∧
    runCompletes primEmpty semCyclic = true := by
  decide

set_option maxRecDepth 8000 in
/-- C1 (amended): the reference checker terminates on the cyclic corpus (it
never follows references, so the run completes), reports zero critical
findings, and instead unconditionally records the pass message claiming no
obvious circular references were detected. -/
theorem cyclic_corpus_audit_behaviour :
    runCompletes primEmpty semCyclic = true ∧
    (auditOrEmpty primEmpty semCyclic).critical = [] ∧
    (auditOrEmpty primEmpty semCyclic).pass.contains
      "No obvious circular references detected (basic check)" = true := by
  decide

set_option maxRecDepth 8000 in
/-- C2 (counterexample): with the layer-qualified reference
`\x7bprimitive.color.brand.600\x7d` the audit reports two critical findings, not
exactly one. -/
theorem qualified_reference_yields_two_criticals :
    (auditOrEmpty primTwoTok semTwoTokQualified).critical.length = 2 := by
  decide

set_option maxRecDepth 8000 in
/-- C2 (amended): the layer-qualified reference corpus produces exactly two
critical findings — a dangling-reference finding (the prefixed path is in
neither index) followed by the finding citing the illegal layer prefix. -/
theorem qualified_reference_exact_criticals :
    runCompletes primTwoTok semTwoTokQualified = true ∧
    (auditOrEmpty primTwoTok semTwoTokQualified).critical =
      ["color.action.primary: Reference \"\x7bprimitive.color.brand.600\x7d\" points to non-existent token",
       "color.action.primary: Reference \"\x7bprimitive.color.brand.600\x7d\" includes layer prefix. Use \"\x7bcolor.primary.600\x7d\" not \"\x7bprimitive.color.primary.600\x7d\""] := by
  decide

set_option maxRecDepth 8000 in
/-- C3 (counterexample): the valid two-token corpus yields zero critical
findings but a readiness score of 38, not 100. -/
theorem valid_corpus_score_is_not_100 :
    (auditOrEmpty primTwoTok semTwoTok).critical = [] ∧
    reportedScore (auditOrEmpty primTwoTok semTwoTok) = 38 := by
  decide

set_option maxRecDepth 8000 in
/-- C3 (amended): the valid two-token corpus yields zero critical findings,
nine passes and fifteen warnings (missing essential semantic patterns,
incomplete colour scales, no interactive states, missing white/black anchors,
no accessibility metadata), hence a readiness score of 38. -/
theorem valid_corpus_findings_and_score :
    runCompletes primTwoTok semTwoTok = true ∧
    (auditOrEmpty primTwoTok semTwoTok).critical = [] ∧
    (auditOrEmpty primTwoTok semTwoTok).pass.length = 9 ∧
    (auditOrEmpty primTwoTok semTwoTok).warnings.length = 15 ∧
    reportedScore (auditOrEmpty primTwoTok semTwoTok) = 38 := by
  decide

set_option maxRecDepth 8000 in
/-- C4 (counterexample): the semantic token at the 5-segment path
`color.background.neutral.base.hover`, whose last segment is the recognised
interactive-state name `hover`, still receives a depth warning. -/
theorem state_suffixed_depth_five_still_warned :
    (auditOrEmpty primTwoTok semDeepState).warnings.contains
      "color.background.neutral.base.hover: Nesting depth 5 exceeds recommended max of 4" = true := by
  decide

/-- C4 (amended): the depth check of `checkDTCGCompliance` emits exactly one
warning for a token path iff the path has more than 4 segments — a 4-segment
path gets none, a 5-segment path always gets exactly one, with no exemption
for paths ending in an interactive-state name. -/
theorem depth_warning_iff_longer_than_four :
    ∀ path : List String,
      (depthFindings path).length = if path.length > 4 then 1 else 0 := by
  intro path
  unfold depthFindings
  split <;> simp

set_option maxRecDepth 8000 in
/-- C5 (code bug): for the two-token corpus (one primitive and one semantic
token) the reported stats are 30/18/12 — every checker traversal re-increments
the counters (the primitive tree is walked 18 times and the semantic tree 12
times) — although the true corpus counts are 2/1/1. -/
theorem stats_counters_are_overcounted :
    (auditOrEmpty primTwoTok semTwoTok).stats.totalTokens = 30 ∧
    (auditOrEmpty primTwoTok semTwoTok).stats.primitiveTokens = 18 ∧
    (auditOrEmpty primTwoTok semTwoTok).stats.semanticTokens = 12 ∧
    (tokensOf primTwoTok).length = 1 ∧
    (tokensOf semTwoTok).length = 1 := by
  decide

set_option maxRecDepth 8000 in
/-- C6 (counterexample): a primitive colour token whose raw `$value` is the
reference string `\x7bcolor.base\x7d` is reported as a string-format critical —
reference strings are not exempt from shape validation. -/
theorem reference_valued_color_token_flagged :
    (auditOrEmpty primRefValued primEmpty).critical.contains
      "color.ref: Color uses string format (\"\x7bcolor.base\x7d\"). Must use HSL object format per ADR 006" = true := by
  decide

/-- C6 (amended): the colour and dimension validators flag every string
`$value` — including reference strings bracketed by the reference delimiters —
as a string-format critical and fail the token; there is no reference skip in
the validators (references escape shape checks only because semantic-layer
values are never passed to these validators). -/
theorem validators_flag_reference_strings :
    ∀ (s tokenPath : String) (r : Results),
      jsStartsWith s "\x7b" = true → jsEndsWith s "\x7d" = true →
      validateColorValue (.str s) tokenPath r =
        (addCritical (tokenPath ++ ": Color uses string format (\"" ++ s ++
          "\"). Must use HSL object format per ADR 006") r, false) ∧
      validateDimensionValue (.str s) tokenPath r =
        (addCritical (tokenPath ++ ": Dimension uses string format (\"" ++ s ++
          "\"). Must use \x7bvalue, unit\x7d object per ADR 005") r, false) := by
  intro s tokenPath r _ _
  exact ⟨rfl, rfl⟩

/-- Witness for C6 (amended) at the concrete reference string
`\x7bcolor.brand.600\x7d`. -/
theorem validators_flag_reference_strings_witness :
    jsStartsWith "\x7bcolor.brand.600\x7d" "\x7b" = true ∧
    jsEndsWith "\x7bcolor.brand.600\x7d" "\x7d" = true ∧
    (validateColorValue (.str "\x7bcolor.brand.600\x7d") "color.ref" emptyResults =
      (addCritical ("color.ref" ++ ": Color uses string format (\"" ++ "\x7bcolor.brand.600\x7d" ++
        "\"). Must use HSL object format per ADR 006") emptyResults, false) ∧
     validateDimensionValue (.str "\x7bcolor.brand.600\x7d") "color.ref" emptyResults =
      (addCritical ("color.ref" ++ ": Dimension uses string format (\"" ++ "\x7bcolor.brand.600\x7d" ++
        "\"). Must use \x7bvalue, unit\x7d object per ADR 005") emptyResults, false)) :=
  ⟨by decide, by decide,
    validators_flag_reference_strings "\x7bcolor.brand.600\x7d" "color.ref" emptyResults
      (by decide) (by decide)⟩

set_option maxRecDepth 8000 in
/-- C7 (counterexample): a primitive token whose `$description` is the truthy
non-string `5` makes the quality checker throw a `TypeError` that unwinds the
run — the audit does not complete and produces no report. -/
theorem nonstring_description_aborts_run :
    runCompletes primNumericDesc primEmpty = false ∧
    runFailure primNumericDesc primEmpty =
      some "TypeError: token.$description.toLowerCase is not a function" := by
  decide

/-- C9: when a run records no findings at all (all three buckets empty), the
score computation is guarded against division by zero and reports 0. -/
theorem empty_buckets_score_zero :
    ∀ r : Results, r.pass = [] → r.warnings = [] → r.critical = [] →
      reportedScore r = 0 := by
  intro r h1 h2 h3
  simp [reportedScore, h1, h2, h3]

/-- Witness for C9 at the empty collector. -/
theorem empty_buckets_score_zero_witness :
    emptyResults.pass = [] ∧ emptyResults.warnings = [] ∧ emptyResults.critical = [] ∧
    reportedScore emptyResults = 0 :=
  ⟨rfl, rfl, rfl, empty_buckets_score_zero emptyResults rfl rfl rfl⟩


theorem foldlM_except_ok {α β : Type} (l : List α) (g : β → α → Except String β) :
    (∀ a ∈ l, ∀ b, ∃ c, g b a = .ok c) → ∀ b, ∃ c, l.foldlM g b = .ok c := by
  intro h
  induction l with
  | nil => intro b; exact ⟨b, rfl⟩
  | cons a l ih =>
    intro b
    obtain ⟨c, hc⟩ := h a (List.mem_cons_self a l) b
    obtain ⟨d, hd⟩ := ih (fun x hx b => h x (List.mem_cons_of_mem a hx) b) c
    refine ⟨d, ?_⟩
    rw [List.foldlM_cons, hc]
    simpa [Bind.bind, Except.bind] using hd

theorem traverseRunE_ok {σ : Type} (tree : JsValue) (layer : String)
    (f : List String → JsValue → Results × σ → Except String (Results × σ))
    (h : ∀ pt ∈ tokensOf tree, ∀ acc, ∃ out, f pt.1 pt.2 acc = .ok out) :
    ∀ init, ∃ out, traverseRunE tree layer f init = .ok out := by
  intro init
  unfold traverseRunE
  apply foldlM_except_ok
  intro pt hpt acc
  obtain ⟨out, hout⟩ := h pt hpt acc
  refine ⟨(visitToken layer out.1, out.2), ?_⟩
  rw [hout]
  rfl

theorem shadowLoop_ok : ∀ (l : List JsValue) (tp : String) (r : Results),
    l.all isObjLike = true → ∃ out, shadowLoop l tp r = .ok out := by
  intro l
  induction l with
  | nil => intro tp r _; exact ⟨(r, true), rfl⟩
  | cons shadow rest ih =>
    intro tp r hall
    rw [List.all_cons, Bool.and_eq_true] at hall
    have hcond : (!isObjLike shadow) = false := by rw [hall.1]; rfl
    unfold shadowLoop
    rw [hcond]
    simp only [Bool.false_eq_true, if_false]
    by_cases hm : (["offsetX", "offsetY", "blur", "color"].filter
        (fun p => !hasProp shadow p)).length > 0
    · rw [if_pos hm]
      exact ⟨_, rfl⟩
    · rw [if_neg hm]
      exact ih tp r hall.2

theorem validateShadowValue_ok (v : JsValue) (tp : String) (r : Results)
    (hv : (match v with | .arr vs => vs.all isObjLike | _ => true) = true) :
    ∃ out, validateShadowValue v tp r = .ok out := by
  unfold validateShadowValue
  by_cases hobj : (truthy v && isObjLike v) = true
  · have hcond : (!(truthy v && isObjLike v)) = false := by rw [hobj]; rfl
    rw [hcond]
    simp only [Bool.false_eq_true, if_false]
    apply shadowLoop_ok
    cases v with
    | arr vs => exact hv
    | obj fs => simp [isObjLike]
    | str s => simp [isObjLike] at hobj
    | num q => simp [isObjLike] at hobj
    | bool b => simp [isObjLike] at hobj
    | null => simp [isObjLike] at hobj
  · have hcond : (!(truthy v && isObjLike v)) = true := by
      rw [Bool.not_eq_true] at hobj
      rw [hobj]
      rfl
    rw [hcond]
    simp only [if_true]
    exact ⟨_, rfl⟩

theorem except_bind_ok {A B : Type} (x : Except String A) (k : A → Except String B)
    (h1 : ∃ a, x = .ok a) (h2 : ∀ a, ∃ b, k a = .ok b) : ∃ b, (x >>= k) = .ok b := by
  obtain ⟨a, ha⟩ := h1
  obtain ⟨b, hb⟩ := h2 a
  refine ⟨b, ?_⟩
  rw [ha]
  simpa [Bind.bind, Except.bind] using hb

theorem checkValueFormat_ok (prim sem : JsValue) (r : Results)
    (h : ((tokensOf sem).all fun pt => shadowSafe pt.2) = true) :
    ∃ r2, checkValueFormatConsistency prim sem r = .ok r2 := by
  rw [List.all_eq_true] at h
  unfold checkValueFormatConsistency
  have hpt : ∀ pt ∈ tokensOf sem, ∀ acc : Results × Nat,
      ∃ out, (fun (path : List String) (token : JsValue) (acc : Results × Nat) =>
        if typeIs token "shadow" then do
          let vr ← validateShadowValue ((getProp token "$value").getD .null) (getTokenPath path) acc.1
          pure (vr.1, if vr.2 then acc.2 else acc.2 + 1)
        else .ok acc) pt.1 pt.2 acc = .ok out := by
    intro pt hmem acc
    beta_reduce
    have hs := h pt hmem
    unfold shadowSafe at hs
    by_cases hty : typeIs pt.2 "shadow" = true
    · rw [if_pos hty] at hs ⊢
      obtain ⟨out, hout⟩ :=
        validateShadowValue_ok ((getProp pt.2 "$value").getD .null) (getTokenPath pt.1) acc.1 hs
      rw [hout]
      exact ⟨_, rfl⟩
    · rw [if_neg hty]
      exact ⟨acc, rfl⟩
  apply except_bind_ok
  · exact traverseRunE_ok sem "semantic" _ hpt _
  · intro a
    exact ⟨_, rfl⟩

theorem ite_except_ok {A : Type} {c : Prop} [Decidable c] {x y : Except String A}
    (hx : c → ∃ a, x = .ok a) (hy : ¬c → ∃ a, y = .ok a) :
    ∃ a, (if c then x else y) = .ok a := by
  by_cases h : c
  · rw [if_pos h]; exact hx h
  · rw [if_neg h]; exact hy h

theorem addTypeEntry_ok (assoc : List (String × List (Option JsValue))) (category : String)
    (ty : Option JsValue) (h : objectProtoMembers.contains category = false) :
    ∃ m, addTypeEntry assoc category ty = .ok m := by
  unfold addTypeEntry
  by_cases hown : (assoc.any (fun e => e.1 == category)) = true
  · rw [if_pos hown]
    exact ⟨_, rfl⟩
  · rw [if_neg hown, h]
    simp only [Bool.false_eq_true, if_false]
    exact ⟨_, rfl⟩

theorem checkQuality_ok (prim sem : JsValue) (r : Results)
    (h : ((tokensOf prim).all fun pt => descSafe pt.2) = true)
    (hproto : ((tokensOf prim).all fun pt => protoSafe pt.1) = true) :
    ∃ r2, checkQuality prim sem r = .ok r2 := by
  rw [List.all_eq_true] at h
  rw [List.all_eq_true] at hproto
  unfold checkQuality
  apply except_bind_ok
  · apply traverseRunE_ok
    intro pt hmem acc
    beta_reduce
    have hs := h pt hmem
    unfold descSafe at hs
    cases hdesc : getProp pt.2 "$description" with
    | none => exact ⟨acc, rfl⟩
    | some d =>
      rw [hdesc] at hs
      cases d with
      | str s0 =>
        exact ite_except_ok
          (fun _ => ite_except_ok (fun _ => ⟨_, rfl⟩) (fun _ => ⟨acc, rfl⟩))
          (fun _ => ⟨acc, rfl⟩)
      | num q =>
        have ht : truthy (JsValue.num q) = false := by simpa using hs
        exact ite_except_ok (fun hc => absurd hc (by simp [ht])) (fun _ => ⟨acc, rfl⟩)
      | bool b =>
        have ht : truthy (JsValue.bool b) = false := by simpa using hs
        exact ite_except_ok (fun hc => absurd hc (by simp [ht])) (fun _ => ⟨acc, rfl⟩)
      | null =>
        exact ite_except_ok (fun hc => absurd hc (by simp [truthy])) (fun _ => ⟨acc, rfl⟩)
      | arr es => simp [truthy] at hs
      | obj fs => simp [truthy] at hs
  · intro a
    apply except_bind_ok
    · apply traverseRunE_ok
      intro pt hmem acc
      beta_reduce
      have hp : objectProtoMembers.contains (pt.1.headD "") = false := by
        have hq := hproto pt hmem
        unfold protoSafe at hq
        simpa using hq
      obtain ⟨m, hm⟩ := addTypeEntry_ok acc.2 (pt.1.headD "") (getProp pt.2 "$type") hp
      rw [hm]
      exact ⟨_, rfl⟩
    · intro b
      exact ⟨_, rfl⟩

set_option maxRecDepth 8000 in
/-- A primitive tree whose one valid token sits under a top-level group named
`toString` satisfies `descSafe` and `shadowSafe` but still aborts the run:
the prototype-chain read `typesByCategory[category]` is truthy, the `Set`
initialisation is skipped and `.add` throws a `TypeError`. -/
theorem proto_named_group_aborts_run :
    ((tokensOf primProtoGroup).all fun pt => descSafe pt.2) = true ∧
    ((tokensOf primEmpty).all fun pt => shadowSafe pt.2) = true ∧
    runCompletes primProtoGroup primEmpty = false ∧
    runFailure primProtoGroup primEmpty =
      some "TypeError: typesByCategory[category].add is not a function" := by
  decide

/-- C7 (amended): the audit run completes and produces a report whenever every
primitive token has a string or falsy `$description`, no primitive token sits
under a top-level group named after an `Object.prototype` member, and every
semantic shadow-typed token with an array value has only object-like members;
checker failures on other token shapes are NOT downgraded to per-token
findings — a primitive token with a truthy non-string `$description`, or one
under a prototype-named top-level group, makes the quality checker throw a
`TypeError` that unwinds the whole run. -/
theorem audit_completes_on_safe_trees :
    ∀ primitiveTokens semanticTokens : JsValue,
      ((tokensOf primitiveTokens).all fun pt => descSafe pt.2) = true →
      ((tokensOf primitiveTokens).all fun pt => protoSafe pt.1) = true →
      ((tokensOf semanticTokens).all fun pt => shadowSafe pt.2) = true →
      runCompletes primitiveTokens semanticTokens = true := by
  intro prim sem h1 hp h2
  have hex : ∃ rr, runAuditE prim sem = .ok rr := by
    unfold runAuditE
    apply except_bind_ok
    · exact checkValueFormat_ok prim sem _ h2
    · intro r4
      apply except_bind_ok
      · exact checkQuality_ok prim sem _ h1 hp
      · intro r6
        exact ⟨r6, rfl⟩
  obtain ⟨rr, hrr⟩ := hex
  unfold runCompletes
  rw [hrr]

set_option maxRecDepth 8000 in
/-- Witness for C7 (amended) at the valid two-token corpus. -/
theorem audit_completes_on_safe_trees_witness :
    ((tokensOf primTwoTok).all fun pt => descSafe pt.2) = true ∧
    ((tokensOf primTwoTok).all fun pt => protoSafe pt.1) = true ∧
    ((tokensOf semTwoTok).all fun pt => shadowSafe pt.2) = true ∧
    runCompletes primTwoTok semTwoTok = true :=
  ⟨by decide, by decide, by decide,
    audit_completes_on_safe_trees primTwoTok semTwoTok (by decide) (by decide) (by decide)⟩

theorem natDivRound_eq_round (p t : Nat) (ht : 0 < t) :
    (((200 * p + t) / (2 * t) : Nat) : ℤ) = round ((100 : ℚ) * p / t) := by
  rw [round_eq]
  have h1 : (100 : ℚ) * p / t + 1 / 2 = ((200 * p + t : ℕ) : ℚ) / ((2 * t : ℕ) : ℚ) := by
    have ht' : (t : ℚ) ≠ 0 := by positivity
    push_cast
    field_simp
    ring
  rw [h1, ← Int.natCast_floor_eq_floor (by positivity), Nat.floor_div_eq_div]

/-- C8: at the end of every completed run with at least one finding, the
reported score equals `round(100 * pass / (pass + warnings + critical))` and
the verdict is three-way: fully ready exactly when critical and warnings are
both empty, ready-with-warnings exactly when critical is empty and warnings
non-empty, not ready exactly when critical is non-empty. -/
theorem score_formula_and_verdict :
    ∀ (primitiveTokens semanticTokens : JsValue) (r : Results),
      runAuditE primitiveTokens semanticTokens = .ok r →
      0 < r.pass.length + r.warnings.length + r.critical.length →
      ((reportedScore r : ℤ) =
        round ((100 : ℚ) * r.pass.length /
          ((r.pass.length + r.warnings.length + r.critical.length : ℕ) : ℚ)) ∧
       (verdict r = .productionReady ↔ r.critical = [] ∧ r.warnings = []) ∧
       (verdict r = .readyWithWarnings ↔ r.critical = [] ∧ r.warnings ≠ []) ∧
       (verdict r = .notProductionReady ↔ r.critical ≠ [])) := by
  intro prim sem r _ hpos
  refine ⟨?_, ?_, ?_, ?_⟩
  · simp only [reportedScore]
    have hsum : r.pass.length + (r.critical.length + r.warnings.length) =
        r.pass.length + r.warnings.length + r.critical.length := by omega
    rw [hsum, if_pos hpos]
    exact natDivRound_eq_round r.pass.length
      (r.pass.length + r.warnings.length + r.critical.length) hpos
  · by_cases hc : r.critical = [] <;> by_cases hw : r.warnings = [] <;>
      simp [verdict, hc, hw, List.length_eq_zero]
  · by_cases hc : r.critical = [] <;> by_cases hw : r.warnings = [] <;>
      simp [verdict, hc, hw, List.length_eq_zero]
  · by_cases hc : r.critical = [] <;> by_cases hw : r.warnings = [] <;>
      simp [verdict, hc, hw, List.length_eq_zero]

set_option maxRecDepth 8000 in
/-- Witness for C8 at the valid two-token corpus (9 passes, 15 warnings). -/
theorem score_formula_and_verdict_witness :
    runAuditE primTwoTok semTwoTok = Except.ok (auditOrEmpty primTwoTok semTwoTok) ∧
    0 < (auditOrEmpty primTwoTok semTwoTok).pass.length +
        (auditOrEmpty primTwoTok semTwoTok).warnings.length +
        (auditOrEmpty primTwoTok semTwoTok).critical.length ∧
    (reportedScore (auditOrEmpty primTwoTok semTwoTok) : ℤ) =
      round ((100 : ℚ) * (auditOrEmpty primTwoTok semTwoTok).pass.length /
        (((auditOrEmpty primTwoTok semTwoTok).pass.length +
          (auditOrEmpty primTwoTok semTwoTok).warnings.length +
          (auditOrEmpty primTwoTok semTwoTok).critical.length : ℕ) : ℚ)) :=
  ⟨by decide, by decide,
    (score_formula_and_verdict primTwoTok semTwoTok (auditOrEmpty primTwoTok semTwoTok)
      (by decide) (by decide)).1⟩

theorem specVisits_iff_entrySpec (v : JsValue) (q : List String) (t : JsValue) :
    SpecVisits v q t ↔ EntrySpec (entriesOf v) q t := by
  constructor
  · intro h
    cases h with
    | token hmem hk hobj hdv => exact ⟨_, _, hmem, hk, hobj, Or.inl ⟨hdv, rfl, rfl⟩⟩
    | group hmem hk hobj hdv hrec => exact ⟨_, _, hmem, hk, hobj, Or.inr ⟨hdv, _, rfl, hrec⟩⟩
  · rintro ⟨k, c, hmem, hk, hobj, hcase⟩
    rcases hcase with ⟨hdv, hq, ht⟩ | ⟨hdv, q2, hq, hrec⟩
    · subst hq; subst ht
      exact SpecVisits.token hmem hk hobj hdv
    · subst hq
      exact SpecVisits.group hmem hk hobj hdv hrec

theorem entrySpec_cons (k : String) (v : JsValue) (rest : List (String × JsValue))
    (q : List String) (t : JsValue) :
    EntrySpec ((k, v) :: rest) q t ↔
      ((jsStartsWith k "$" = false ∧ isObjLike v = true ∧
        ((hasDollarValue v = true ∧ q = [k] ∧ t = v) ∨
         (hasDollarValue v = false ∧ ∃ q2, q = k :: q2 ∧ SpecVisits v q2 t))) ∨
       EntrySpec rest q t) := by
  unfold EntrySpec
  constructor
  · rintro ⟨k0, c0, hmem, h1, h2, h3⟩
    rcases List.mem_cons.mp hmem with heq | hmem2
    · rw [Prod.mk.injEq] at heq
      obtain ⟨hk, hc⟩ := heq
      subst hk; subst hc
      exact Or.inl ⟨h1, h2, h3⟩
    · exact Or.inr ⟨k0, c0, hmem2, h1, h2, h3⟩
  · rintro (⟨h1, h2, h3⟩ | ⟨k0, c0, hmem, h1, h2, h3⟩)
    · exact ⟨k, v, List.mem_cons_self _ _, h1, h2, h3⟩
    · exact ⟨k0, c0, List.mem_cons_of_mem _ hmem, h1, h2, h3⟩

theorem cons_step (k : String) (v : JsValue) (path : List String)
    (restMem : List (List String × JsValue)) (restSpec : List (String × JsValue))
    (ihv : ∀ p t, ((p, t) ∈ traverseTokens v (path ++ [k])) ↔
      ∃ q, p = (path ++ [k]) ++ q ∧ SpecVisits v q t)
    (ihr : ∀ p t, ((p, t) ∈ restMem) ↔ ∃ q, p = path ++ q ∧ EntrySpec restSpec q t)
    (p : List String) (t : JsValue) :
    ((p, t) ∈ (if jsStartsWith k "$" then []
       else if isObjLike v then
         if hasDollarValue v then [(path ++ [k], v)]
         else traverseTokens v (path ++ [k])
       else []) ++ restMem) ↔
      ∃ q, p = path ++ q ∧ EntrySpec ((k, v) :: restSpec) q t := by
  rw [List.mem_append]
  by_cases hd : jsStartsWith k "$" = true
  · rw [if_pos hd]
    simp only [List.not_mem_nil, false_or]
    rw [ihr p t]
    apply exists_congr; intro q
    apply and_congr_right; intro _
    rw [entrySpec_cons]
    simp [hd]
  · have hd' : jsStartsWith k "$" = false := by rwa [Bool.not_eq_true] at hd
    rw [if_neg hd]
    by_cases ho : isObjLike v = true
    · rw [if_pos ho]
      by_cases hv : hasDollarValue v = true
      · rw [if_pos hv]
        constructor
        · rintro (hin | hin)
          · rw [List.mem_singleton, Prod.mk.injEq] at hin
            obtain ⟨hp, ht⟩ := hin
            subst hp
            exact ⟨[k], rfl, (entrySpec_cons k v restSpec [k] t).mpr
              (Or.inl ⟨hd', ho, Or.inl ⟨hv, rfl, ht⟩⟩)⟩
          · obtain ⟨q, hq, hrest⟩ := (ihr p t).mp hin
            exact ⟨q, hq, (entrySpec_cons k v restSpec q t).mpr (Or.inr hrest)⟩
        · rintro ⟨q, hq, hes⟩
          rcases (entrySpec_cons k v restSpec q t).mp hes with ⟨_, _, hcase⟩ | hrest
          · rcases hcase with ⟨_, hq1, ht⟩ | ⟨hdv2, _⟩
            · subst hq1; subst ht; subst hq
              left
              rw [List.mem_singleton]
            · rw [hv] at hdv2; cases hdv2
          · right
            exact (ihr p t).mpr ⟨q, hq, hrest⟩
      · have hv' : hasDollarValue v = false := by rwa [Bool.not_eq_true] at hv
        rw [if_neg hv]
        constructor
        · rintro (hin | hin)
          · obtain ⟨q, hq, hs⟩ := (ihv p t).mp hin
            refine ⟨k :: q, ?_, (entrySpec_cons k v restSpec (k :: q) t).mpr
              (Or.inl ⟨hd', ho, Or.inr ⟨hv', q, rfl, hs⟩⟩)⟩
            rw [hq, List.append_assoc]
            rfl
          · obtain ⟨q, hq, hrest⟩ := (ihr p t).mp hin
            exact ⟨q, hq, (entrySpec_cons k v restSpec q t).mpr (Or.inr hrest)⟩
        · rintro ⟨q, hq, hes⟩
          rcases (entrySpec_cons k v restSpec q t).mp hes with ⟨_, _, hcase⟩ | hrest
          · rcases hcase with ⟨hdv2, _⟩ | ⟨_, q2, hq2, hs⟩
            · rw [hv'] at hdv2; cases hdv2
            · left
              refine (ihv p t).mpr ⟨q2, ?_, hs⟩
              rw [hq, hq2, List.append_assoc]
              rfl
          · right
            exact (ihr p t).mpr ⟨q, hq, hrest⟩
    · have ho' : isObjLike v = false := by rwa [Bool.not_eq_true] at ho
      rw [if_neg ho]
      simp only [List.not_mem_nil, false_or]
      rw [ihr p t]
      apply exists_congr; intro q
      apply and_congr_right; intro _
      rw [entrySpec_cons]
      simp [ho']

theorem traverse_mem_iff :
    (∀ v path, ∀ p t, ((p, t) ∈ traverseTokens v path) ↔
      ∃ q, p = path ++ q ∧ SpecVisits v q t) ∧
    (∀ vs i path, ∀ p t, ((p, t) ∈ travIdx vs i path) ↔
      ∃ q, p = path ++ q ∧ EntrySpec (idxPairs i vs) q t) ∧
    (∀ kvs path, ∀ p t, ((p, t) ∈ travKVs kvs path) ↔
      ∃ q, p = path ++ q ∧ EntrySpec kvs q t) := by
  refine traverseTokens.mutual_induct
    (motive_1 := fun v path => ∀ p t, ((p, t) ∈ traverseTokens v path) ↔
      ∃ q, p = path ++ q ∧ SpecVisits v q t)
    (motive_2 := fun vs i path => ∀ p t, ((p, t) ∈ travIdx vs i path) ↔
      ∃ q, p = path ++ q ∧ EntrySpec (idxPairs i vs) q t)
    (motive_3 := fun kvs path => ∀ p t, ((p, t) ∈ travKVs kvs path) ↔
      ∃ q, p = path ++ q ∧ EntrySpec kvs q t)
    ?_ ?_ ?_ ?_ ?_ ?_ ?_
  · intro kvs path ih p t
    rw [show traverseTokens (.obj kvs) path = travKVs kvs path from by simp [traverseTokens]]
    rw [ih p t]
    apply exists_congr; intro q
    apply and_congr_right; intro _
    rw [specVisits_iff_entrySpec]
    exact Iff.rfl
  · intro vs path ih p t
    rw [show traverseTokens (.arr vs) path = travIdx vs 0 path from by simp [traverseTokens]]
    rw [ih p t]
    apply exists_congr; intro q
    apply and_congr_right; intro _
    rw [specVisits_iff_entrySpec]
    exact Iff.rfl
  · intro t0 path h1 h2 p t
    have hemp : traverseTokens t0 path = [] := by
      cases t0 with
      | obj kvs => exact absurd rfl (h1 kvs)
      | arr vs => exact absurd rfl (h2 vs)
      | str s => simp [traverseTokens]
      | num q => simp [traverseTokens]
      | bool b => simp [traverseTokens]
      | null => simp [traverseTokens]
    rw [hemp]
    simp only [List.not_mem_nil, false_iff]
    rintro ⟨q, hq, hs⟩
    rw [specVisits_iff_entrySpec] at hs
    obtain ⟨k, c, hmem, _, _, _⟩ := hs
    cases t0 with
    | obj kvs => exact h1 kvs rfl
    | arr vs => exact h2 vs rfl
    | str s => simp [entriesOf] at hmem
    | num q => simp [entriesOf] at hmem
    | bool b => simp [entriesOf] at hmem
    | null => simp [entriesOf] at hmem
  · intro i path p t
    rw [show travIdx [] i path = [] from by simp [travIdx]]
    simp only [List.not_mem_nil, false_iff]
    rintro ⟨q, hq, ⟨k, c, hmem, _, _, _⟩⟩
    simp [idxPairs] at hmem
  · intro v rest i path ih1 ih2 p t
    rw [show travIdx (v :: rest) i path =
      (if jsStartsWith (toString i) "$" then []
       else if isObjLike v then
         if hasDollarValue v then [(path ++ [toString i], v)]
         else traverseTokens v (path ++ [toString i])
       else []) ++ travIdx rest (i + 1) path from by simp [travIdx]]
    exact cons_step (toString i) v path (travIdx rest (i + 1) path) (idxPairs (i + 1) rest)
      ih1 ih2 p t
  · intro path p t
    rw [show travKVs [] path = [] from by simp [travKVs]]
    simp only [List.not_mem_nil, false_iff]
    rintro ⟨q, hq, ⟨k, c, hmem, _, _, _⟩⟩
    simp at hmem
  · intro k v rest path ih1 ih3 p t
    rw [show travKVs ((k, v) :: rest) path =
      (if jsStartsWith k "$" then []
       else if isObjLike v then
         if hasDollarValue v then [(path ++ [k], v)]
         else traverseTokens v (path ++ [k])
       else []) ++ travKVs rest path from by simp [travKVs]]
    exact cons_step k v path (travKVs rest path) rest ih1 ih3 p t

/-- C10: `traverseTokens` invokes its callback exactly on the object-like
nodes containing the key `$value` that are reachable through entries whose
keys do not start with `$` (never recursing into metadata keys, silently
skipping non-object values); every path passed to the callback is non-empty
and contains no segment starting with `$`. -/
theorem traverse_visits_exactly_tokens :
    (∀ tree p t, ((p, t) ∈ tokensOf tree) ↔ SpecVisits tree p t) ∧
    (∀ tree p t, ((p, t) ∈ tokensOf tree) →
      p ≠ [] ∧ (∀ s ∈ p, jsStartsWith s "$" = false) ∧
      isObjLike t = true ∧ hasDollarValue t = true) := by
  have hiff : ∀ tree p t, ((p, t) ∈ tokensOf tree) ↔ SpecVisits tree p t := by
    intro tree p t
    rw [tokensOf, traverse_mem_iff.1 tree [] p t]
    simp
  refine ⟨hiff, ?_⟩
  intro tree p t hmem
  have hs := (hiff tree p t).mp hmem
  clear hmem
  induction hs with
  | token hmem hk hobj hdv =>
    refine ⟨by simp, ?_, hobj, hdv⟩
    intro s hsm
    rw [List.mem_singleton] at hsm
    subst hsm
    exact hk
  | group hmem hk hobj hdv hrec ih =>
    refine ⟨by simp, ?_, ih.2.2.1, ih.2.2.2⟩
    intro s hsm
    rcases List.mem_cons.mp hsm with rfl | hsm2
    · exact hk
    · exact ih.2.1 s hsm2

set_option maxRecDepth 8000 in
/-- Witness for C10 at a one-token tree. -/
theorem traverse_visits_exactly_tokens_witness :
    ((["color"], oneToken) ∈ tokensOf oneTokenTree) ∧
    (["color"] ≠ [] ∧ (∀ s ∈ ["color"], jsStartsWith s "$" = false) ∧
      isObjLike oneToken = true ∧ hasDollarValue oneToken = true) :=
  ⟨by decide,
    traverse_visits_exactly_tokens.2 oneTokenTree ["color"] oneToken (by decide)⟩
